import Mathlib

/-!
Verification development for the rating-update library in
`src/partial_trueskill/domain.py`.

Python floats are modelled as real numbers.  Fallible library calls are
modelled explicitly: `math.sqrt` raises `ValueError: math domain error` on a
negative argument, so it is embedded as an `Option`-valued function where that
failure is actually reachable (`standard_variance_update`); inside
`Event.__post_init__` the radicand of `math.sqrt` is provably nonnegative
(lemma `std_dev_radicand_nonneg` below), so `Real.sqrt` is used there and the
conditions under which `__post_init__` can raise at all are collected in the
predicate `Event.post_init_raises`.

Python compares ratings with `==`; all three `Rating` dataclasses derive a
structural `__eq__` (same class and equal fields), which coincides with
propositional equality of the `Rating` inductive below.  Object identity
(`is`) is a strictly finer relation; where a claim distinguishes identity from
`==`, Python objects are modelled by `PyObj` values carrying an object id.
-/

open MeasureTheory

/-- Probability density function of `statistics.NormalDist()` (standard normal):
`exp(-x^2/2) / sqrt(2*pi)`. -/
noncomputable def normal_dist_pdf (x : ℝ) : ℝ :=
  Real.exp (-(x ^ 2) / 2) / Real.sqrt (2 * Real.pi)

/-- Cumulative distribution function of `statistics.NormalDist()` (standard
normal), the integral of the density up to `x`. -/
noncomputable def normal_dist_cdf (x : ℝ) : ℝ :=
  ∫ t in Set.Iic x, normal_dist_pdf t

/-- Python's `math.sqrt`: raises `ValueError: math domain error` on a negative
argument (modelled as `none`), otherwise returns the square root. -/
noncomputable def math_sqrt (x : ℝ) : Option ℝ :=
  if 0 ≤ x then some (Real.sqrt x) else none

/-- The frozen `Parameters` dataclass: beta and tau for an event. -/
structure Parameters where
  static_performance_spread : ℝ
  constant_additional_variance : ℝ

/-- Property `Parameters.beta`. -/
def Parameters.beta (p : Parameters) : ℝ := p.static_performance_spread

/-- Property `Parameters.tau`. -/
def Parameters.tau (p : Parameters) : ℝ := p.constant_additional_variance

/-- The `Rating` hierarchy as a closed inductive: `ConstantRating` (fields
`is_set`, `variance`, `mean` in dataclass order), `SkillBasedRating` (fields
`mean`, `variance`) and `RateableTotality` (fields `name`, `ratings`).
Propositional equality of these values coincides with the dataclass-generated
`__eq__` of the source (same class, equal fields). -/
inductive Rating where
  | ConstantRating (is_set : Bool) (variance : ℝ) (mean : ℝ)
  | SkillBasedRating (mean : ℝ) (variance : ℝ)
  | RateableTotality (name : String) (ratings : List Rating)

noncomputable instance : DecidableEq Rating := fun _ _ => Classical.propDecidable _

mutual

/-- Attribute `mean`: stored for `ConstantRating` and `SkillBasedRating`;
for `RateableTotality` the property recomputes the sum over children on
every read. -/
noncomputable def Rating.mean : Rating → ℝ
  | .ConstantRating _ _ m => m
  | .SkillBasedRating m _ => m
  | .RateableTotality _ rs => Rating.mean_sum rs

/-- Sum of the means of a list of ratings (`sum([rating.mean for ...])`). -/
noncomputable def Rating.mean_sum : List Rating → ℝ
  | [] => 0
  | r :: rs => Rating.mean r + Rating.mean_sum rs

end

mutual

/-- Attribute `variance`: stored for `ConstantRating` and `SkillBasedRating`;
for `RateableTotality` the property recomputes the sum over children on
every read. -/
noncomputable def Rating.variance : Rating → ℝ
  | .ConstantRating _ v _ => v
  | .SkillBasedRating _ v => v
  | .RateableTotality _ rs => Rating.variance_sum rs

/-- Sum of the variances of a list of ratings. -/
noncomputable def Rating.variance_sum : List Rating → ℝ
  | [] => 0
  | r :: rs => Rating.variance r + Rating.variance_sum rs

end

mutual

/-- Attribute `beta_count`: class attribute `0` on `ConstantRating`, `1` on
`SkillBasedRating`, and the recomputed sum over children on `RateableTotality`. -/
def Rating.beta_count : Rating → ℕ
  | .ConstantRating _ _ _ => 0
  | .SkillBasedRating _ _ => 1
  | .RateableTotality _ rs => Rating.beta_count_sum rs

/-- Sum of the beta counts of a list of ratings. -/
def Rating.beta_count_sum : List Rating → ℕ
  | [] => 0
  | r :: rs => Rating.beta_count r + Rating.beta_count_sum rs

end

mutual

/-- Method `sigma_variance_for_std_dev`: the `Rating` base-class default
returns `variance ** 2`; `RateableTotality` overrides it with the sum of the
children's `sigma_variance_for_std_dev()` values. -/
noncomputable def Rating.sigma_variance_for_std_dev : Rating → ℝ
  | .ConstantRating _ v _ => v ^ 2
  | .SkillBasedRating _ v => v ^ 2
  | .RateableTotality _ rs => Rating.sigma_sum rs

/-- Sum of the `sigma_variance_for_std_dev()` values of a list of ratings. -/
noncomputable def Rating.sigma_sum : List Rating → ℝ
  | [] => 0
  | r :: rs => Rating.sigma_variance_for_std_dev r + Rating.sigma_sum rs

end

/-- The `Event` dataclass after `__post_init__` has run: the four inputs plus
`name`, together with the five derived statistics which are cached at
construction time and never recomputed (changing `winner`/`loser` afterwards
leaves the cached statistics stale, exactly as in the source). -/
structure Event where
  weight : ℝ
  winner : Rating
  loser : Rating
  parameters : Parameters
  name : String
  delta : ℝ
  std_dev_of_performances : ℝ
  z_factor : ℝ
  mean_scale : ℝ
  variance_scale : ℝ

/-- Radicand of the `math.sqrt` call in `Event._std_dev_of_performances`:
`(winner.beta_count + loser.beta_count) * beta**2
  + winner.sigma_variance_for_std_dev() + loser.sigma_variance_for_std_dev()`. -/
noncomputable def std_dev_radicand (winner loser : Rating) (p : Parameters) : ℝ :=
  ((Rating.beta_count winner + Rating.beta_count loser : ℕ) : ℝ)
      * p.static_performance_spread ^ 2
    + Rating.sigma_variance_for_std_dev winner + Rating.sigma_variance_for_std_dev loser

/-- Construction of an `Event`, mirroring `__init__` plus `__post_init__`:
the five derived statistics are computed in dependency order, each from the
inputs and the earlier statistics only (`_delta`, `_std_dev_of_performances`,
`_z_factor`, `_mean_scale`, `_variance_scale`). -/
noncomputable def Event.make (weight : ℝ) (winner loser : Rating)
    (parameters : Parameters) (name : String) : Event :=
  let delta := Rating.mean winner - Rating.mean loser
  let c := Real.sqrt (std_dev_radicand winner loser parameters)
  let z := delta / c
  let v := normal_dist_pdf z / normal_dist_cdf z
  let w := v * (v + z)
  ⟨weight, winner, loser, parameters, name, delta, c, z, v, w⟩

/-- Conditions under which `Event.__post_init__` raises an exception:
`math.sqrt` raises a domain error when its radicand is negative, `_z_factor`
raises `ZeroDivisionError` when `std_dev_of_performances` is zero, and
`_mean_scale` raises `ZeroDivisionError` when the cdf value is zero.  The
`weight` argument is accepted but never inspected: `__post_init__` performs no
validation of the documented precondition `0 < weight <= 1`. -/
noncomputable def Event.post_init_raises (weight : ℝ) (winner loser : Rating)
    (p : Parameters) : Prop :=
  std_dev_radicand winner loser p < 0
    ∨ Real.sqrt (std_dev_radicand winner loser p) = 0
    ∨ normal_dist_cdf ((Rating.mean winner - Rating.mean loser)
        / Real.sqrt (std_dev_radicand winner loser p)) = 0

/-- Method `Event.direction_of_weight`: `if rating == self.winner: return 1`,
`return -1`.  Python's `==` on these dataclasses is structural value equality. -/
noncomputable def Event.direction_of_weight (e : Event) (rating : Rating) : ℝ :=
  if rating = e.winner then 1 else -1

/-- Function `standard_mean_update`: when `won_or_lost` is `None` it is first
derived via `event.direction_of_weight(rating)`; the new mean is
`rating.mean + (event.weight * won_or_lost) * (event.mean_scale *
 ((rating.variance ** 2 + event.parameters.tau ** 2) / event.std_dev_of_performances))`. -/
noncomputable def standard_mean_update (rating : Rating) (event : Event)
    (won_or_lost : Option ℝ) : ℝ :=
  let wl := won_or_lost.getD (event.direction_of_weight rating)
  Rating.mean rating + (event.weight * wl) * (event.mean_scale *
    ((Rating.variance rating ^ 2 + event.parameters.tau ^ 2)
      / event.std_dev_of_performances))

/-- Function `standard_variance_update`: computes
`(variance_sqr + tau_sqr) * (1 - abs(event.weight) * (event.variance_scale *
 ((variance_sqr + tau_sqr) / event.std_dev_of_performances ** 2)))`
and passes it to `math.sqrt`, which fails on a negative radicand. -/
noncomputable def standard_variance_update (rating : Rating) (event : Event) :
    Option ℝ :=
  let tau_sqr := event.parameters.constant_additional_variance ^ 2
  let variance_sqr := Rating.variance rating ^ 2
  let new_variance_sqr := (variance_sqr + tau_sqr) * (1 - |event.weight| *
    (event.variance_scale * ((variance_sqr + tau_sqr)
      / event.std_dev_of_performances ^ 2)))
  math_sqrt new_variance_sqr

mutual

/-- Method `update_mean` of each `Rating` variant, as a value transformer:
`ConstantRating` is a no-op when `is_set`; `SkillBasedRating` assigns
`standard_mean_update(self, event, won_or_lost)`; `RateableTotality` ignores
any passed direction, recomputes it via `event.direction_of_weight(self)` and
propagates it to every child. -/
noncomputable def Rating.update_mean : Rating → Event → Option ℝ → Rating
  | .ConstantRating is_set v m, e, wl =>
      if is_set then .ConstantRating is_set v m
      else .ConstantRating is_set v
        (standard_mean_update (.ConstantRating is_set v m) e wl)
  | .SkillBasedRating m v, e, wl =>
      .SkillBasedRating (standard_mean_update (.SkillBasedRating m v) e wl) v
  | .RateableTotality n rs, e, _ =>
      .RateableTotality n (Rating.update_mean_list rs e
        (some (e.direction_of_weight (.RateableTotality n rs))))

/-- In-order `update_mean` of every rating in a list (the loop body of
`RateableTotality.update_mean`). -/
noncomputable def Rating.update_mean_list : List Rating → Event → Option ℝ → List Rating
  | [], _, _ => []
  | r :: rs, e, wl => Rating.update_mean r e wl :: Rating.update_mean_list rs e wl

end

mutual

/-- Method `update_variance` of each `Rating` variant, as a value transformer:
`ConstantRating` is a no-op when `is_set`; otherwise the standard variance
update is assigned, whose `math.sqrt` call may fail (propagated as `none`);
`RateableTotality` propagates to every child unconditionally. -/
noncomputable def Rating.update_variance : Rating → Event → Option Rating
  | .ConstantRating is_set v m, e =>
      if is_set then some (.ConstantRating is_set v m)
      else (standard_variance_update (.ConstantRating is_set v m) e).map
        (fun v2 => .ConstantRating is_set v2 m)
  | .SkillBasedRating m v, e =>
      (standard_variance_update (.SkillBasedRating m v) e).map
        (fun v2 => .SkillBasedRating m v2)
  | .RateableTotality n rs, e =>
      (Rating.update_variance_list rs e).map (fun rs2 => .RateableTotality n rs2)

/-- In-order `update_variance` of every rating in a list (the loop body of
`RateableTotality.update_variance`). -/
noncomputable def Rating.update_variance_list : List Rating → Event → Option (List Rating)
  | [], _ => some []
  | r :: rs, e =>
      (Rating.update_variance r e).bind (fun r2 =>
        (Rating.update_variance_list rs e).map (fun rs2 => r2 :: rs2))

end

/-- Method `Rating.update_mean_and_variance`: `update_mean(event)` (with
`won_or_lost` defaulting to `None`) strictly before `update_variance(event)`. -/
noncomputable def Rating.update_mean_and_variance (r : Rating) (e : Event) :
    Option Rating :=
  Rating.update_variance (Rating.update_mean r e none) e

/-- A Python object: an object identity (`oid`, compared by `is`) carrying a
`Rating` value (compared by `==`).  Distinct objects may carry equal values. -/
structure PyObj where
  oid : ℕ
  val : Rating

/-- An `Event` whose winner and loser are references to Python objects; used
where a claim distinguishes object identity from `==` equality. -/
structure PyEvent where
  weight : ℝ
  winner : PyObj
  loser : PyObj
  parameters : Parameters

/-- Method `Event.direction_of_weight` at the object level: the source
compares `rating == self.winner`, i.e. the carried values structurally;
object identity is not consulted. -/
noncomputable def PyEvent.direction_of_weight (e : PyEvent) (rating : PyObj) : ℝ :=
  if rating.val = e.winner.val then 1 else -1

mutual

/-- Data-model invariant of the spec: every stored `variance` field in a
rating tree is nonnegative (for composites, the requirement is imposed on all
children; the composite's own `variance` is derived). -/
def Rating.stored_variances_nonneg : Rating → Prop
  | .ConstantRating _ v _ => 0 ≤ v
  | .SkillBasedRating _ v => 0 ≤ v
  | .RateableTotality _ rs => Rating.stored_variances_nonneg_list rs

/-- All ratings in a list satisfy `stored_variances_nonneg`. -/
def Rating.stored_variances_nonneg_list : List Rating → Prop
  | [] => True
  | r :: rs => Rating.stored_variances_nonneg r ∧ Rating.stored_variances_nonneg_list rs

end

/-- Parameters of the spec's concrete scenario: `beta = 25/6`, `tau = 25/300`. -/
noncomputable def c2_params : Parameters := ⟨25 / 6, 25 / 300⟩

/-- Scenario winner object's initial value: `SkillBasedRating(mean=25, variance=25/3)`. -/
noncomputable def c2_winner0 : Rating := .SkillBasedRating 25 (25 / 3)

/-- Scenario loser object's initial value: `SkillBasedRating(mean=25, variance=25/3)`.
Note this is a distinct Python object whose value equals the winner's. -/
noncomputable def c2_loser0 : Rating := .SkillBasedRating 25 (25 / 3)

/-- Scenario event `Event(weight=1.0, winner, loser, parameters)` as built by
`__post_init__` from the initial rating values. -/
noncomputable def c2_e0 : Event := Event.make 1 c2_winner0 c2_loser0 c2_params ""

/-- The winner object's value after `winner.update_mean(event)`.  The event
holds a live reference to the winner object, so from here on its `winner`
attribute shows the mutated value while the cached statistics stay frozen. -/
noncomputable def c2_winner1 : Rating := Rating.update_mean c2_winner0 c2_e0 none

/-- The scenario event as seen through its live references after the winner's
mean update: same cached statistics, mutated `winner` attribute. -/
noncomputable def c2_e1 : Event := { c2_e0 with winner := c2_winner1 }

/-- The complete scenario trace after the winner's mean update:
`winner.update_variance(event)`, then `loser.update_mean(event)` (direction
derived from the now-mutated winner), then `loser.update_variance(event)`.
Returns the winner and loser objects' final values, or `none` if any
`math.sqrt` call raised. -/
noncomputable def c2_trace : Option (Rating × Rating) :=
  (Rating.update_variance c2_winner1 c2_e1).bind (fun w2 =>
    let e2 : Event := { c2_e1 with winner := w2 }
    let l1 := Rating.update_mean c2_loser0 e2 none
    (Rating.update_variance l1 { e2 with loser := l1 }).map (fun l2 => (w2, l2)))

/-- Closed form of the scenario's mean-update magnitude:
`mean_scale * ((variance^2 + tau^2) / std_dev_of_performances)` with
`mean_scale = 2/sqrt(2*pi)`, `variance^2 + tau^2 = 10001/144` and
`std_dev_of_performances = sqrt(3125/18)`. -/
noncomputable def c2_bump : ℝ :=
  (2 / Real.sqrt (2 * Real.pi)) * ((10001 / 144) / Real.sqrt (3125 / 18))

/-- Closed form of the scenario's variance-update radicand:
`(variance^2 + tau^2) * (1 - variance_scale * ((variance^2 + tau^2) / c^2))`
with `variance_scale = 2/pi`. -/
noncomputable def c2_rad : ℝ :=
  (10001 / 144) * (1 - (2 / Real.pi) * ((10001 / 144) / (3125 / 18)))

/-- The winner object's final value in the scenario. -/
noncomputable def c2_w2 : Rating := .SkillBasedRating (25 + c2_bump) (Real.sqrt c2_rad)

/-- The loser object's final value in the scenario. -/
noncomputable def c2_l2 : Rating := .SkillBasedRating (25 - c2_bump) (Real.sqrt c2_rad)

/-- A Python object with id 0 holding `SkillBasedRating(25, 25/3)`. -/
noncomputable def c1_winner_obj : PyObj := ⟨0, .SkillBasedRating 25 (25 / 3)⟩

/-- A distinct Python object (id 1) holding an equal value
`SkillBasedRating(25, 25/3)`: not identity-equal to `c1_winner_obj`. -/
noncomputable def c1_loser_obj : PyObj := ⟨1, .SkillBasedRating 25 (25 / 3)⟩

/-- An event whose winner is object 0 and whose loser is the distinct but
value-equal object 1. -/
noncomputable def c1_event : PyEvent := ⟨1, c1_winner_obj, c1_loser_obj, c2_params⟩

/-! ### Basic lemmas about the embedding -/

theorem Event.make_weight (w : ℝ) (wi lo : Rating) (p : Parameters) (n : String) :
    (Event.make w wi lo p n).weight = w := rfl

theorem Event.make_winner (w : ℝ) (wi lo : Rating) (p : Parameters) (n : String) :
    (Event.make w wi lo p n).winner = wi := rfl

theorem Event.make_loser (w : ℝ) (wi lo : Rating) (p : Parameters) (n : String) :
    (Event.make w wi lo p n).loser = lo := rfl

theorem Event.make_parameters (w : ℝ) (wi lo : Rating) (p : Parameters) (n : String) :
    (Event.make w wi lo p n).parameters = p := rfl

theorem Event.make_delta (w : ℝ) (wi lo : Rating) (p : Parameters) (n : String) :
    (Event.make w wi lo p n).delta = Rating.mean wi - Rating.mean lo := rfl

theorem Event.make_std_dev (w : ℝ) (wi lo : Rating) (p : Parameters) (n : String) :
    (Event.make w wi lo p n).std_dev_of_performances
      = Real.sqrt (std_dev_radicand wi lo p) := rfl

theorem Event.make_z_factor (w : ℝ) (wi lo : Rating) (p : Parameters) (n : String) :
    (Event.make w wi lo p n).z_factor
      = (Rating.mean wi - Rating.mean lo) / Real.sqrt (std_dev_radicand wi lo p) := rfl

theorem Event.make_mean_scale (w : ℝ) (wi lo : Rating) (p : Parameters) (n : String) :
    (Event.make w wi lo p n).mean_scale
      = normal_dist_pdf ((Event.make w wi lo p n).z_factor)
          / normal_dist_cdf ((Event.make w wi lo p n).z_factor) := rfl

theorem Event.make_variance_scale (w : ℝ) (wi lo : Rating) (p : Parameters) (n : String) :
    (Event.make w wi lo p n).variance_scale
      = (Event.make w wi lo p n).mean_scale
          * ((Event.make w wi lo p n).mean_scale + (Event.make w wi lo p n).z_factor) := rfl

mutual

theorem Rating.sigma_nonneg : ∀ r : Rating, 0 ≤ Rating.sigma_variance_for_std_dev r
  | .ConstantRating _ v _ => by simp [Rating.sigma_variance_for_std_dev, sq_nonneg]
  | .SkillBasedRating _ v => by simp [Rating.sigma_variance_for_std_dev, sq_nonneg]
  | .RateableTotality _ rs => by
      simp only [Rating.sigma_variance_for_std_dev]
      exact Rating.sigma_sum_nonneg rs

theorem Rating.sigma_sum_nonneg : ∀ rs : List Rating, 0 ≤ Rating.sigma_sum rs
  | [] => by simp [Rating.sigma_sum]
  | r :: rs => by
      simp only [Rating.sigma_sum]
      exact add_nonneg (Rating.sigma_nonneg r) (Rating.sigma_sum_nonneg rs)

end

/-- The radicand of the `math.sqrt` call inside `Event.__post_init__` is
nonnegative for every pair of ratings, so that call never raises. -/
theorem std_dev_radicand_nonneg (wi lo : Rating) (p : Parameters) :
    0 ≤ std_dev_radicand wi lo p := by
  unfold std_dev_radicand
  have h1 : (0:ℝ) ≤ ((Rating.beta_count wi + Rating.beta_count lo : ℕ) : ℝ)
      * p.static_performance_spread ^ 2 :=
    mul_nonneg (Nat.cast_nonneg _) (sq_nonneg _)
  have h2 := Rating.sigma_nonneg wi
  have h3 := Rating.sigma_nonneg lo
  linarith

/-! ### The standard normal distribution at zero -/

theorem gaussian_integral_Iic_zero :
    (∫ x in Set.Iic (0:ℝ), Real.exp (-(x ^ 2) / 2)) = Real.sqrt (2 * Real.pi) / 2 := by
  have h1 := integral_comp_neg_Iic (0:ℝ) (fun x => Real.exp (-(x ^ 2) / 2))
  simp only [neg_sq, neg_zero] at h1
  rw [h1]
  have h3 : (∫ x in Set.Ioi (0:ℝ), Real.exp (-(x ^ 2) / 2))
      = ∫ x in Set.Ioi (0:ℝ), Real.exp (-(1/2) * x ^ 2) := by
    refine setIntegral_congr_fun measurableSet_Ioi (fun x _ => ?_)
    ring_nf
  rw [h3, integral_gaussian_Ioi]
  have h4 : Real.pi / (1/2) = 2 * Real.pi := by ring
  rw [h4]

theorem normal_dist_cdf_zero : normal_dist_cdf 0 = 1 / 2 := by
  have hs : Real.sqrt (2 * Real.pi) ≠ 0 := by positivity
  unfold normal_dist_cdf normal_dist_pdf
  rw [integral_div, gaussian_integral_Iic_zero]
  field_simp
  ring

theorem normal_dist_pdf_zero : normal_dist_pdf 0 = 1 / Real.sqrt (2 * Real.pi) := by
  unfold normal_dist_pdf
  norm_num

theorem mean_scale_at_zero :
    normal_dist_pdf 0 / normal_dist_cdf 0 = 2 / Real.sqrt (2 * Real.pi) := by
  have hs : Real.sqrt (2 * Real.pi) ≠ 0 := by positivity
  rw [normal_dist_pdf_zero, normal_dist_cdf_zero]
  field_simp

theorem sqrt_two_pi_bounds :
    2.50627 < Real.sqrt (2 * Real.pi) ∧ Real.sqrt (2 * Real.pi) < 2.5067 := by
  have hl := Real.pi_gt_3141592
  have hu := Real.pi_lt_3141593
  constructor
  · rw [Real.lt_sqrt (by norm_num)]
    nlinarith
  · rw [Real.sqrt_lt' (by norm_num)]
    nlinarith

theorem mean_scale_zero_gt : (0.7978 : ℝ) < 2 / Real.sqrt (2 * Real.pi) := by
  have hs : (0:ℝ) < Real.sqrt (2 * Real.pi) := Real.sqrt_pos.mpr (by positivity)
  rw [lt_div_iff hs]
  nlinarith [sqrt_two_pi_bounds.2]

theorem mean_scale_zero_lt : 2 / Real.sqrt (2 * Real.pi) < (0.7980 : ℝ) := by
  have hs : (0:ℝ) < Real.sqrt (2 * Real.pi) := Real.sqrt_pos.mpr (by positivity)
  rw [div_lt_iff hs]
  nlinarith [sqrt_two_pi_bounds.1]

theorem mean_scale_zero_sq : (2 / Real.sqrt (2 * Real.pi)) ^ 2 = 2 / Real.pi := by
  have hp : Real.pi ≠ 0 := Real.pi_ne_zero
  rw [div_pow, Real.sq_sqrt (by positivity)]
  field_simp
  ring

theorem c2_radicand_value :
    std_dev_radicand c2_winner0 c2_loser0 c2_params = 3125 / 18 := by
  unfold std_dev_radicand c2_winner0 c2_loser0 c2_params
  simp only [Rating.beta_count, Rating.sigma_variance_for_std_dev]
  push_cast
  norm_num

theorem c2_delta_value : c2_e0.delta = 0 := by
  unfold c2_e0
  rw [Event.make_delta]
  unfold c2_winner0 c2_loser0
  simp [Rating.mean]

theorem c2_z_factor_value : c2_e0.z_factor = 0 := by
  unfold c2_e0
  rw [Event.make_z_factor]
  unfold c2_winner0 c2_loser0
  simp [Rating.mean]

theorem c2_mean_scale_value : c2_e0.mean_scale = 2 / Real.sqrt (2 * Real.pi) := by
  unfold c2_e0
  rw [Event.make_mean_scale, show (Event.make 1 c2_winner0 c2_loser0 c2_params "").z_factor = 0
    from c2_z_factor_value]
  exact mean_scale_at_zero

/-! ### Claim theorems -/

/-- Claim C3: at construction time an Event computes its five derived
statistics, each from the inputs and earlier statistics only: `delta` is the
difference of the means, `std_dev_of_performances` is the square root of the
combined beta and sigma contributions, `z_factor` is `delta / c`,
`mean_scale` is `pdf(z)/cdf(z)` for the standard normal distribution and
`variance_scale` is `mean_scale * (mean_scale + z_factor)`. -/
theorem C3_event_statistics (w : ℝ) (wi lo : Rating) (p : Parameters) (n : String) :
    (Event.make w wi lo p n).delta = Rating.mean wi - Rating.mean lo
    ∧ (Event.make w wi lo p n).std_dev_of_performances
        = Real.sqrt (((Rating.beta_count wi + Rating.beta_count lo : ℕ) : ℝ) * p.beta ^ 2
            + Rating.sigma_variance_for_std_dev wi + Rating.sigma_variance_for_std_dev lo)
    ∧ (Event.make w wi lo p n).z_factor
        = (Event.make w wi lo p n).delta / (Event.make w wi lo p n).std_dev_of_performances
    ∧ (Event.make w wi lo p n).mean_scale
        = normal_dist_pdf ((Event.make w wi lo p n).z_factor)
            / normal_dist_cdf ((Event.make w wi lo p n).z_factor)
    ∧ (Event.make w wi lo p n).variance_scale
        = (Event.make w wi lo p n).mean_scale
            * ((Event.make w wi lo p n).mean_scale + (Event.make w wi lo p n).z_factor) :=
  ⟨rfl, rfl, rfl, rfl, rfl⟩

/-- Claim C4: `standard_mean_update(rating, event, won_or_lost)` returns
`rating.mean + (event.weight * won_or_lost) * (event.mean_scale *
((rating.variance^2 + tau^2) / event.std_dev_of_performances))`, and a `None`
direction is first derived via `event.direction_of_weight(rating)`.  The
function is a pure value computation: it returns the new mean and leaves the
rating and event values untouched. -/
theorem C4_standard_mean_update (r : Rating) (e : Event) :
    (∀ d : ℝ, standard_mean_update r e (some d)
        = Rating.mean r + (e.weight * d) * (e.mean_scale *
            ((Rating.variance r ^ 2 + e.parameters.tau ^ 2) / e.std_dev_of_performances)))
    ∧ standard_mean_update r e none
        = Rating.mean r + (e.weight * e.direction_of_weight r) * (e.mean_scale *
            ((Rating.variance r ^ 2 + e.parameters.tau ^ 2) / e.std_dev_of_performances)) :=
  ⟨fun _ => rfl, rfl⟩

/-- Claim C5: `standard_variance_update(rating, event)` returns the square
root of `(variance^2 + tau^2) * (1 - |weight| * (variance_scale *
((variance^2 + tau^2) / c^2)))`, and whenever that radicand is negative the
`math.sqrt` call raises a domain error (modelled as `none`) instead of
silently coercing the value. -/
theorem C5_standard_variance_update (r : Rating) (e : Event) :
    standard_variance_update r e
      = if 0 ≤ (Rating.variance r ^ 2 + e.parameters.tau ^ 2) * (1 - |e.weight| *
            (e.variance_scale * ((Rating.variance r ^ 2 + e.parameters.tau ^ 2)
              / e.std_dev_of_performances ^ 2)))
        then some (Real.sqrt ((Rating.variance r ^ 2 + e.parameters.tau ^ 2) * (1 - |e.weight| *
            (e.variance_scale * ((Rating.variance r ^ 2 + e.parameters.tau ^ 2)
              / e.std_dev_of_performances ^ 2)))))
        else none := rfl

/-- Claim C7: a `ConstantRating` with `is_set = true` is frozen: `update_mean`,
`update_variance` and `update_mean_and_variance` all leave its mean and
variance (indeed the whole value) unchanged, for every event and direction. -/
theorem C7_constant_rating_frozen (v m : ℝ) (e : Event) (wl : Option ℝ) :
    Rating.update_mean (.ConstantRating true v m) e wl = .ConstantRating true v m
    ∧ Rating.update_variance (.ConstantRating true v m) e = some (.ConstantRating true v m)
    ∧ Rating.update_mean_and_variance (.ConstantRating true v m) e
        = some (.ConstantRating true v m) := by
  refine ⟨?_, ?_, ?_⟩ <;>
    simp [Rating.update_mean, Rating.update_variance, Rating.update_mean_and_variance]

/-- Claim C8: a `RateableTotality` with children `[c1, c2]` reads its `mean`,
`beta_count` and `variance` as live sums over the children, in every state of
the children (the equations hold for arbitrary child values, hence also after
any update), and the values read after `update_mean` / `update_variance` are
the sums over the updated children — never stale. -/
theorem C8_totality_live_sums (n : String) (c1 c2 : Rating) :
    Rating.mean (.RateableTotality n [c1, c2]) = Rating.mean c1 + Rating.mean c2
    ∧ Rating.beta_count (.RateableTotality n [c1, c2])
        = Rating.beta_count c1 + Rating.beta_count c2
    ∧ Rating.variance (.RateableTotality n [c1, c2])
        = Rating.variance c1 + Rating.variance c2
    ∧ (∀ (e : Event) (wl : Option ℝ),
        Rating.mean (Rating.update_mean (.RateableTotality n [c1, c2]) e wl)
          = Rating.mean (Rating.update_mean c1 e
              (some (e.direction_of_weight (.RateableTotality n [c1, c2]))))
            + Rating.mean (Rating.update_mean c2 e
              (some (e.direction_of_weight (.RateableTotality n [c1, c2])))))
    ∧ (∀ e : Event,
        (Rating.update_variance (.RateableTotality n [c1, c2]) e).map Rating.variance
          = (Rating.update_variance c1 e).bind (fun a =>
              (Rating.update_variance c2 e).map (fun b =>
                Rating.variance a + Rating.variance b))) := by
  refine ⟨?_, ?_, ?_, ?_, ?_⟩
  · simp [Rating.mean, Rating.mean_sum]
  · simp [Rating.beta_count, Rating.beta_count_sum]
  · simp [Rating.variance, Rating.variance_sum]
  · intro e wl
    simp [Rating.update_mean, Rating.update_mean_list, Rating.mean, Rating.mean_sum]
  · intro e
    cases h1 : Rating.update_variance c1 e with
    | none => simp [Rating.update_variance, Rating.update_variance_list, h1]
    | some a =>
      cases h2 : Rating.update_variance c2 e with
      | none => simp [Rating.update_variance, Rating.update_variance_list, h1, h2]
      | some b =>
        simp [Rating.update_variance, Rating.update_variance_list, h1, h2,
          Rating.variance, Rating.variance_sum]

/-- Claim C10: `standard_variance_update` is independent of the win/lose
direction: it reads only the rating's variance together with the event's
cached statistics, so two ratings with equal pre-update variance get equal
results (whichever of them is the winner), and the event's weight enters only
through its absolute value. -/
theorem C10_variance_update_direction_free (e : Event) (r1 r2 : Rating)
    (h : Rating.variance r1 = Rating.variance r2) :
    standard_variance_update r1 e = standard_variance_update r2 e
    ∧ ∀ r : Rating,
        standard_variance_update r { e with weight := -e.weight }
          = standard_variance_update r e := by
  constructor
  · unfold standard_variance_update
    rw [h]
  · intro r
    unfold standard_variance_update
    simp [abs_neg]

/-- Witness for C10 at a concrete input: the stored winner
`SkillBasedRating(25, 25/3)` and the unrelated `SkillBasedRating(10, 25/3)`
have equal variances, so they receive equal variance updates from the
scenario event. -/
theorem C10_witness :
    Rating.variance (.SkillBasedRating 25 (25 / 3))
        = Rating.variance (.SkillBasedRating 10 (25 / 3))
    ∧ (standard_variance_update (.SkillBasedRating 25 (25 / 3)) c2_e0
        = standard_variance_update (.SkillBasedRating 10 (25 / 3)) c2_e0
      ∧ ∀ r : Rating,
          standard_variance_update r { c2_e0 with weight := -c2_e0.weight }
            = standard_variance_update r c2_e0) :=
  ⟨by simp [Rating.variance],
   C10_variance_update_direction_free c2_e0 _ _ (by simp [Rating.variance])⟩

/-- Counterexample to claim C1: `direction_of_weight` compares with Python
`==`, which for these dataclasses is value equality, not object identity.
The loser here is a distinct object (id 1 versus the winner's id 0) holding a
value equal to the winner's, so the claim demands -1, yet the method returns
+1. -/
theorem C1_counterexample :
    c1_event.direction_of_weight c1_loser_obj = 1
    ∧ c1_loser_obj.oid = 1
    ∧ c1_event.winner.oid = 0
    ∧ (c1_loser_obj.oid = c1_event.winner.oid ↔ False) := by
  refine ⟨?_, rfl, rfl, by simp [c1_loser_obj, c1_event, c1_winner_obj]⟩
  unfold PyEvent.direction_of_weight
  have h : c1_loser_obj.val = c1_event.winner.val := rfl
  rw [if_pos h]

/-- Claim C1 as amended: `direction_of_weight(rating)` returns +1 exactly when
the rating compares equal to the stored winner under dataclass value equality
(same class, equal fields), and -1 exactly otherwise; object identity is not
consulted, so a distinct but value-equal rating (such as a loser whose fields
equal the winner's) also receives +1. -/
theorem C1_amended (e : PyEvent) (r : PyObj) :
    (e.direction_of_weight r = 1 ↔ r.val = e.winner.val)
    ∧ (e.direction_of_weight r = -1 ↔ r.val ≠ e.winner.val) := by
  unfold PyEvent.direction_of_weight
  by_cases h : r.val = e.winner.val
  · rw [if_pos h]
    constructor
    · exact ⟨fun _ => h, fun _ => rfl⟩
    · constructor
      · intro h1
        norm_num at h1
      · intro h2
        exact absurd h h2
  · rw [if_neg h]
    constructor
    · constructor
      · intro h1
        norm_num at h1
      · intro h2
        exact absurd h2 h
    · exact ⟨fun _ => h, fun _ => rfl⟩

/-- Counterexample to claim C6: constructing an `Event` with `weight = 2`,
outside the documented range `(0, 1]`, raises nothing — none of the
conditions under which `__post_init__` can raise holds (the radicand is
positive, the performance spread is nonzero and the cdf value is 1/2), and
the construction silently yields well-defined statistics. -/
theorem C6_counterexample :
    (Event.post_init_raises 2 c2_winner0 c2_loser0 c2_params ↔ False)
    ∧ 0 < (Event.make 2 c2_winner0 c2_loser0 c2_params "").std_dev_of_performances := by
  have hrad : std_dev_radicand c2_winner0 c2_loser0 c2_params = 3125 / 18 :=
    c2_radicand_value
  have hpos : (0:ℝ) < Real.sqrt (3125 / 18) := Real.sqrt_pos.mpr (by norm_num)
  constructor
  · constructor
    · intro h
      rcases h with h | h | h
      · rw [hrad] at h
        norm_num at h
      · rw [hrad] at h
        exact absurd h (ne_of_gt hpos)
      · rw [hrad] at h
        unfold c2_winner0 c2_loser0 at h
        simp only [Rating.mean] at h
        rw [sub_self, zero_div, normal_dist_cdf_zero] at h
        norm_num at h
    · intro h
      exact h.elim
  · rw [Event.make_std_dev, hrad]
    exact hpos

/-- Claim C6 as amended: constructing an `Event` with a weight outside
`(0, 1]` succeeds silently.  `__post_init__` performs no weight validation:
whether construction raises, and every derived statistic, is completely
independent of the weight, which is only stored. -/
theorem C6_amended (w w2 : ℝ) (wi lo : Rating) (p : Parameters) (n n2 : String) :
    (Event.post_init_raises w wi lo p ↔ Event.post_init_raises w2 wi lo p)
    ∧ (Event.make w wi lo p n).delta = (Event.make w2 wi lo p n2).delta
    ∧ (Event.make w wi lo p n).std_dev_of_performances
        = (Event.make w2 wi lo p n2).std_dev_of_performances
    ∧ (Event.make w wi lo p n).z_factor = (Event.make w2 wi lo p n2).z_factor
    ∧ (Event.make w wi lo p n).mean_scale = (Event.make w2 wi lo p n2).mean_scale
    ∧ (Event.make w wi lo p n).variance_scale
        = (Event.make w2 wi lo p n2).variance_scale :=
  ⟨Iff.rfl, rfl, rfl, rfl, rfl, rfl⟩

mutual

theorem Rating.variance_nonneg :
    ∀ r : Rating, Rating.stored_variances_nonneg r → 0 ≤ Rating.variance r
  | .ConstantRating _ _ _, h => h
  | .SkillBasedRating _ _, h => h
  | .RateableTotality _ rs, h => Rating.variance_sum_nonneg rs h

theorem Rating.variance_sum_nonneg :
    ∀ rs : List Rating, Rating.stored_variances_nonneg_list rs →
      0 ≤ Rating.variance_sum rs
  | [], _ => le_refl 0
  | r :: rs, h =>
      add_nonneg (Rating.variance_nonneg r h.1) (Rating.variance_sum_nonneg rs h.2)

end

mutual

theorem Rating.sigma_le_variance_sq :
    ∀ r : Rating, Rating.stored_variances_nonneg r →
      Rating.sigma_variance_for_std_dev r ≤ Rating.variance r ^ 2
  | .ConstantRating _ _ _, _ => le_refl _
  | .SkillBasedRating _ _, _ => le_refl _
  | .RateableTotality _ rs, h => Rating.sigma_sum_le_variance_sum_sq rs h

theorem Rating.sigma_sum_le_variance_sum_sq :
    ∀ rs : List Rating, Rating.stored_variances_nonneg_list rs →
      Rating.sigma_sum rs ≤ Rating.variance_sum rs ^ 2
  | [], _ => by simp [Rating.sigma_sum, Rating.variance_sum]
  | r :: rs, h => by
      have h1 := Rating.sigma_le_variance_sq r h.1
      have h2 := Rating.sigma_sum_le_variance_sum_sq rs h.2
      have h3 := Rating.variance_nonneg r h.1
      have h4 := Rating.variance_sum_nonneg rs h.2
      simp only [Rating.sigma_sum, Rating.variance_sum]
      nlinarith

end

theorem Rating.sigma_sum_eq (rs : List Rating) :
    Rating.sigma_sum rs = (rs.map Rating.sigma_variance_for_std_dev).sum := by
  induction rs with
  | nil => simp [Rating.sigma_sum]
  | cons r rs ih => simp [Rating.sigma_sum, ih]

/-- Claim C9: non-composite ratings' `sigma_variance_for_std_dev()` is the
square of the stored variance; a `RateableTotality`'s is the sum of its
children's values; consequently, for a totality with at least two children of
positive variance (and nonnegative stored variances throughout, the data-model
invariant), it differs from the square of the totality's own derived variance. -/
theorem C9_sigma_semantics :
    (∀ (b : Bool) (v m : ℝ),
        Rating.sigma_variance_for_std_dev (.ConstantRating b v m)
          = Rating.variance (.ConstantRating b v m) ^ 2)
    ∧ (∀ m v : ℝ,
        Rating.sigma_variance_for_std_dev (.SkillBasedRating m v)
          = Rating.variance (.SkillBasedRating m v) ^ 2)
    ∧ (∀ (n : String) (cs : List Rating),
        Rating.sigma_variance_for_std_dev (.RateableTotality n cs)
          = (cs.map Rating.sigma_variance_for_std_dev).sum)
    ∧ (∀ (n : String) (c1 c2 : Rating) (rest : List Rating),
        Rating.stored_variances_nonneg_list (c1 :: c2 :: rest) →
        0 < Rating.variance c1 → 0 < Rating.variance c2 →
        Rating.sigma_variance_for_std_dev (.RateableTotality n (c1 :: c2 :: rest))
          ≠ Rating.variance (.RateableTotality n (c1 :: c2 :: rest)) ^ 2) := by
  refine ⟨fun _ _ _ => rfl, fun _ _ => rfl, ?_, ?_⟩
  · intro n cs
    simp [Rating.sigma_variance_for_std_dev, Rating.sigma_sum_eq]
  · intro n c1 c2 rest h hv1 hv2
    apply ne_of_lt
    have h1 := Rating.sigma_le_variance_sq c1 h.1
    have h2 := Rating.sigma_le_variance_sq c2 h.2.1
    have h3 := Rating.sigma_sum_le_variance_sum_sq rest h.2.2
    have h4 := Rating.variance_sum_nonneg rest h.2.2
    simp only [Rating.sigma_variance_for_std_dev, Rating.variance,
      Rating.sigma_sum, Rating.variance_sum]
    nlinarith [mul_pos hv1 hv2]

/-- Witness for C9 at a concrete input: a totality of two unit-variance
skills has `sigma_variance_for_std_dev() = 2` while its derived variance
squares to 4. -/
theorem C9_witness :
    Rating.stored_variances_nonneg_list
        [.SkillBasedRating 0 1, .SkillBasedRating 0 1]
    ∧ 0 < Rating.variance (.SkillBasedRating 0 1)
    ∧ Rating.sigma_variance_for_std_dev
        (.RateableTotality "t" [.SkillBasedRating 0 1, .SkillBasedRating 0 1])
      ≠ Rating.variance
          (.RateableTotality "t" [.SkillBasedRating 0 1, .SkillBasedRating 0 1]) ^ 2 :=
  ⟨by simp [Rating.stored_variances_nonneg_list, Rating.stored_variances_nonneg],
   by norm_num [Rating.variance],
   C9_sigma_semantics.2.2.2 "t" (.SkillBasedRating 0 1) (.SkillBasedRating 0 1) []
     (by simp [Rating.stored_variances_nonneg_list, Rating.stored_variances_nonneg])
     (by norm_num [Rating.variance]) (by norm_num [Rating.variance])⟩

theorem c2_std_dev_value :
    c2_e0.std_dev_of_performances = Real.sqrt (3125 / 18) := by
  unfold c2_e0
  rw [Event.make_std_dev, c2_radicand_value]

theorem c2_variance_scale_value : c2_e0.variance_scale = 2 / Real.pi := by
  have hz : c2_e0.z_factor = 0 := c2_z_factor_value
  have hv : c2_e0.mean_scale = 2 / Real.sqrt (2 * Real.pi) := c2_mean_scale_value
  show c2_e0.mean_scale * (c2_e0.mean_scale + c2_e0.z_factor) = 2 / Real.pi
  rw [hz, hv, add_zero, ← pow_two]
  exact mean_scale_zero_sq

theorem c2_bump_pos : 0 < c2_bump := by
  unfold c2_bump
  have h1 : (0:ℝ) < Real.sqrt (2 * Real.pi) := Real.sqrt_pos.mpr (by positivity)
  have h2 : (0:ℝ) < Real.sqrt (3125 / 18) := Real.sqrt_pos.mpr (by norm_num)
  positivity

theorem c2_rad_nonneg : 0 ≤ c2_rad := by
  unfold c2_rad
  have hb : (2 / Real.pi) * ((10001 / 144) / (3125 / 18)) < 1 := by
    rw [div_mul_eq_mul_div, div_lt_one Real.pi_pos]
    nlinarith [Real.pi_gt_3141592]
  nlinarith

theorem c2_sqrt_rad_lt : Real.sqrt c2_rad < 25 / 3 := by
  rw [Real.sqrt_lt' (by norm_num : (0:ℝ) < 25 / 3)]
  unfold c2_rad
  have hk : 1 / 10001 < (2 / Real.pi) * ((10001 / 144) / (3125 / 18)) := by
    rw [div_mul_eq_mul_div, lt_div_iff Real.pi_pos]
    nlinarith [Real.pi_lt_3141593]
  nlinarith

theorem c2_dir_winner : c2_e0.direction_of_weight c2_winner0 = 1 := by
  unfold Event.direction_of_weight
  rw [if_pos (show c2_winner0 = c2_e0.winner from rfl)]

theorem c2_winner1_eq :
    c2_winner1 = Rating.SkillBasedRating (25 + c2_bump) (25 / 3) := by
  unfold c2_winner1
  rw [show c2_winner0 = Rating.SkillBasedRating 25 (25 / 3) from rfl]
  simp only [Rating.update_mean]
  congr 1
  simp only [standard_mean_update, Option.getD_none]
  rw [show c2_e0.direction_of_weight (Rating.SkillBasedRating 25 (25 / 3)) = 1
    from c2_dir_winner]
  rw [show c2_e0.weight = 1 from rfl]
  rw [c2_mean_scale_value, c2_std_dev_value]
  rw [show c2_e0.parameters.tau = 25 / 300 from rfl]
  simp only [Rating.mean, Rating.variance]
  unfold c2_bump
  norm_num

theorem c2_svu (e : Event) (m : ℝ) (hw : e.weight = 1)
    (hp : e.parameters = c2_params) (hvs : e.variance_scale = 2 / Real.pi)
    (hsd : e.std_dev_of_performances = Real.sqrt (3125 / 18)) :
    standard_variance_update (.SkillBasedRating m (25 / 3)) e
      = some (Real.sqrt c2_rad) := by
  simp only [standard_variance_update, math_sqrt]
  rw [hw, hp, hvs, hsd]
  simp only [Rating.variance]
  rw [show c2_params.constant_additional_variance = 25 / 300 from rfl]
  rw [Real.sq_sqrt (by norm_num : (0:ℝ) ≤ 3125 / 18)]
  rw [abs_one]
  have harith : ((25:ℝ) / 3) ^ 2 + (25 / 300) ^ 2 = 10001 / 144 := by norm_num
  rw [harith]
  have hrad : (10001 / 144 : ℝ)
      * (1 - 1 * ((2 / Real.pi) * ((10001 / 144) / (3125 / 18)))) = c2_rad := by
    unfold c2_rad
    ring
  rw [hrad, if_pos c2_rad_nonneg]

theorem c2_wvar : Rating.update_variance c2_winner1 c2_e1 = some c2_w2 := by
  rw [c2_winner1_eq]
  simp only [Rating.update_variance]
  rw [c2_svu c2_e1 (25 + c2_bump) rfl rfl c2_variance_scale_value c2_std_dev_value]
  rfl

theorem c2_loser_dir :
    ({ c2_e1 with winner := c2_w2 } : Event).direction_of_weight c2_loser0 = -1 := by
  have hne : ¬ (c2_loser0 = ({ c2_e1 with winner := c2_w2 } : Event).winner) := by
    intro heq
    have heq2 : Rating.SkillBasedRating 25 (25 / 3)
        = Rating.SkillBasedRating (25 + c2_bump) (Real.sqrt c2_rad) := heq
    injection heq2 with h1 h2
    linarith [c2_bump_pos]
  unfold Event.direction_of_weight
  rw [if_neg hne]

theorem c2_lmean :
    Rating.update_mean c2_loser0 { c2_e1 with winner := c2_w2 } none
      = Rating.SkillBasedRating (25 - c2_bump) (25 / 3) := by
  rw [show c2_loser0 = Rating.SkillBasedRating 25 (25 / 3) from rfl]
  simp only [Rating.update_mean]
  congr 1
  simp only [standard_mean_update, Option.getD_none]
  rw [show ({ c2_e1 with winner := c2_w2 } : Event).direction_of_weight
      (Rating.SkillBasedRating 25 (25 / 3)) = -1 from c2_loser_dir]
  rw [show ({ c2_e1 with winner := c2_w2 } : Event).weight = 1 from rfl]
  rw [show ({ c2_e1 with winner := c2_w2 } : Event).mean_scale
      = 2 / Real.sqrt (2 * Real.pi) from c2_mean_scale_value]
  rw [show ({ c2_e1 with winner := c2_w2 } : Event).std_dev_of_performances
      = Real.sqrt (3125 / 18) from c2_std_dev_value]
  rw [show ({ c2_e1 with winner := c2_w2 } : Event).parameters.tau = 25 / 300 from rfl]
  simp only [Rating.mean, Rating.variance]
  unfold c2_bump
  norm_num
  ring

theorem c2_lvar :
    Rating.update_variance (Rating.SkillBasedRating (25 - c2_bump) (25 / 3))
        { { c2_e1 with winner := c2_w2 } with
            loser := Rating.SkillBasedRating (25 - c2_bump) (25 / 3) }
      = some c2_l2 := by
  simp only [Rating.update_variance]
  have h : standard_variance_update (Rating.SkillBasedRating (25 - c2_bump) (25 / 3))
      { { c2_e1 with winner := c2_w2 } with
          loser := Rating.SkillBasedRating (25 - c2_bump) (25 / 3) }
      = some (Real.sqrt c2_rad) :=
    c2_svu _ _ rfl rfl c2_variance_scale_value c2_std_dev_value
  rw [h]
  rfl

theorem c2_trace_eq : c2_trace = some (c2_w2, c2_l2) := by
  unfold c2_trace
  rw [c2_wvar]
  simp only [Option.some_bind]
  rw [c2_lmean, c2_lvar]
  rfl

/-- Claim C2: in the spec's concrete scenario (`beta = 25/6`, `tau = 25/300`,
winner and loser both `SkillBasedRating(25, 25/3)`, weight 1) the event has
`delta = 0`, `z_factor = 0` and `mean_scale` within 0.0001 of 0.7979, and
after `update_mean_and_variance(event)` runs on the winner and then on the
loser (through the event's live references), the winner's mean exceeds 25,
the loser's mean is below 25 and both variances drop below 25/3. -/
theorem C2_concrete_scenario :
    c2_e0.delta = 0
    ∧ c2_e0.z_factor = 0
    ∧ |c2_e0.mean_scale - 0.7979| < 0.0001
    ∧ ∃ w2 l2 : Rating,
        c2_trace = some (w2, l2)
        ∧ 25 < Rating.mean w2
        ∧ Rating.mean l2 < 25
        ∧ Rating.variance w2 < 25 / 3
        ∧ Rating.variance l2 < 25 / 3 := by
  refine ⟨c2_delta_value, c2_z_factor_value, ?_, c2_w2, c2_l2, c2_trace_eq, ?_, ?_, ?_, ?_⟩
  · rw [c2_mean_scale_value, abs_lt]
    constructor
    · linarith [mean_scale_zero_gt]
    · linarith [mean_scale_zero_lt]
  · unfold c2_w2
    simp only [Rating.mean]
    linarith [c2_bump_pos]
  · unfold c2_l2
    simp only [Rating.mean]
    linarith [c2_bump_pos]
  · unfold c2_w2
    simp only [Rating.variance]
    exact c2_sqrt_rad_lt
  · unfold c2_l2
    simp only [Rating.variance]
    exact c2_sqrt_rad_lt
